import Mathlib

/-!
Shallow embedding of the `platform_spi` procedural macro (src/src/lib.rs).

The macro takes a configuration (`SpiAttributes`) and an inline module
declaration (`ItemMod`), validates and rewrites the module's items, and
emits conditional module inclusions, hoisted alias declarations, and
compile-time trait assertions.

Identifiers, string literals and spans are modelled as `String`/`Nat`;
syn's syntax-tree types are modelled at the granularity the macro
inspects them, with uninspected payload carried in opaque fields so that
the rewrites can be stated as "everything else unchanged".
-/

namespace PlatformSpi

/-- A path segment (`syn::PathSegment`): an identifier plus optional
generic arguments (`none` models `PathArguments::None`). -/
structure PathSegment where
  ident : String
  args : Option String
deriving DecidableEq, Repr

/-- A path (`syn::Path`): optional leading `::` and a list of segments. -/
structure Path where
  leadingColon : Bool
  segments : List PathSegment
deriving DecidableEq, Repr

/-- A type (`syn::Type`), at the granularity `hoist_type_alias` matches on:
`Type::Path` (with its optional qualified-self) against every other
variant (tuple, array, reference, ...). -/
inductive Ty where
  | path (qself : Option String) (p : Path)
  | tuple (elems : List Path)
  | array (elem : Path) (len : Nat)
  | reference (inner : Path)
  | otherTy (descr : String)
deriving DecidableEq, Repr

/-- A `use` tree (`syn::UseTree`). -/
inductive UseTree where
  | path (ident : String) (tree : UseTree)
  | name (ident : String)
  | rename (ident rename : String)
  | glob
  | group (items : List UseTree)

/-- A type-alias item (`syn::ItemType`). `meta` carries the attributes,
visibility and generics that `hoist_type_alias` clones unchanged;
`span` is the item's source position. -/
structure ItemType where
  ident : String
  ty : Ty
  meta : String
  span : Nat
deriving DecidableEq, Repr

/-- A `use` item (`syn::ItemUse`). `meta` carries attributes/visibility
cloned unchanged by `hoist_use_alias`. -/
structure ItemUse where
  tree : UseTree
  meta : String
  span : Nat

/-- Generics of an impl block (`syn::Generics`): the parameter list and
the optional where-clause. The macro inspects only the where-clause. -/
structure Generics where
  params : List String
  whereClause : Option String
deriving DecidableEq, Repr

/-- An impl item (`syn::ItemImpl`), at the granularity inspected by
`hoist_aliases_and_generate_impls`: body items (contents opaque),
generics, the optional trait reference `(negation present?, trait path)`
(`syn`: `Option<(Option<Not>, Path, For)>`), and the self type. -/
structure ItemImpl where
  generics : Generics
  traitRef : Option (Bool × Path)
  selfTy : Ty
  items : List String
  span : Nat
deriving DecidableEq, Repr

/-- An item of the module body (`syn::Item`), at the granularity matched
by the classifier: `Item::Type`, `Item::Use`, `Item::Impl`, and every
other item kind collapsed into `otherItem` (with its kind name and span). -/
inductive Item where
  | typeAlias (t : ItemType)
  | useItem (u : ItemUse)
  | implItem (i : ItemImpl)
  | otherItem (kind : String) (span : Nat)

/-- A module declaration (`syn::ItemMod`): identifier (with its span),
optional inline content, whether it ends in a semicolon, and the
attributes/visibility/unsafety cloned unchanged into the import decl. -/
structure ItemMod where
  ident : String
  identSpan : Nat
  content : Option (List Item)
  semi : Bool
  meta : String

/-- The compile-time diagnostics the macro can emit (each `compile_error!`
invocation in src/src/lib.rs, tagged with the span it is attached to). -/
inductive Diagnostic where
  | malformedContractAssertion (span : Nat)
  | pathAliasOnly (span : Nat)
  | unsupportedItemKind (span : Nat)
  | externalModuleNotSupported (span : Nat)
  | unexpectedAttributeKey (name : String)
  | synParseError (msg : String)
deriving DecidableEq, Repr

/-! ## Argument parser (`SpiAttributes`, lib.rs lines 107-156) -/

/-- The parsed macro configuration (`SpiAttributes`): the target list and
the module-path string literal. -/
structure SpiAttributes where
  targets : List String
  module_path : String
deriving DecidableEq, Repr

/-- `SpiAttributes::source_paths`: one string `{module_path}/{id}.rs`
per target, in order. -/
def SpiAttributes.source_paths (a : SpiAttributes) : List String :=
  a.targets.map (fun id => a.module_path ++ "/" ++ id ++ ".rs")

/-- `SpiAttributes::target_names`: each target identifier rendered as a
string (identifiers are already modelled as strings). -/
def SpiAttributes.target_names (a : SpiAttributes) : List String :=
  a.targets.map (fun id => id)

/-- A parsed `key = value` argument of the attribute: the value is either
a bracketed identifier list or a string literal. -/
inductive ArgValue where
  | identList (ids : List String)
  | strLit (s : String)
deriving DecidableEq, Repr

/-- One `name = value` pair of the attribute token sequence. -/
structure Arg where
  name : String
  value : ArgValue
deriving DecidableEq, Repr

/-- The loop body of `SpiAttributes::parse` (lib.rs lines 131-152):
each recognised key overwrites the corresponding field (last write wins);
an unrecognised key fails; a recognised key whose value has the wrong
shape is a syn parse error. -/
def parseLoop : List Arg → SpiAttributes → Except Diagnostic SpiAttributes
  | [], result => Except.ok result
  | arg :: rest, result =>
    match arg.name with
    | "targets" =>
      match arg.value with
      | ArgValue.identList ids => parseLoop rest { result with targets := ids }
      | _ => Except.error (Diagnostic.synParseError "expected square brackets")
    | "module_path" =>
      match arg.value with
      | ArgValue.strLit s => parseLoop rest { result with module_path := s }
      | _ => Except.error (Diagnostic.synParseError "expected string literal")
    | other => Except.error (Diagnostic.unexpectedAttributeKey other)

/-- `SpiAttributes::parse` (lib.rs lines 125-155): starts from the
defaults `module_path = "."`, `targets = []` and folds the argument
pairs through `parseLoop`. -/
def SpiAttributes.parse (args : List Arg) : Except Diagnostic SpiAttributes :=
  parseLoop args { module_path := ".", targets := [] }

/-! ## Item classifier / hoister (lib.rs lines 201-271) -/

/-- The `if let (0, None, Some((None, path, _)))` test of lib.rs line 209:
a contract pair `(self_ty, trait path)` is extracted exactly when the impl
body is empty, the where-clause is absent, and a non-negated trait
reference is present. Generic parameters are not inspected. -/
def contract_of (impl_item : ItemImpl) : Option (Ty × Path) :=
  match impl_item.items.length, impl_item.generics.whereClause, impl_item.traitRef with
  | 0, none, some (false, path) => some (impl_item.selfTy, path)
  | _, _, _ => none

/-- `hoist_type_alias` (lib.rs lines 240-261): a path target gets the
block name inserted as a new leading segment (everything else of the
item unchanged); any other target type fails with the path-alias-only
diagnostic at the item. -/
def hoist_type_alias (al : ItemType) (parent_module : String) :
    Except Diagnostic Item :=
  match al.ty with
  | Ty.path qself type_path =>
    let parent_path : PathSegment := { ident := parent_module, args := none }
    let hoisted_path : Path :=
      { type_path with segments := parent_path :: type_path.segments }
    Except.ok (Item.typeAlias { al with ty := Ty.path qself hoisted_path })
  | _ => Except.error (Diagnostic.pathAliasOnly al.span)

/-- `hoist_use_alias` (lib.rs lines 263-271): unconditionally wraps the
use tree in a `UsePath` headed by the block name; never fails. -/
def hoist_use_alias (al : ItemUse) (parent_module : String) :
    Except Diagnostic Item :=
  Except.ok (Item.useItem { al with tree := UseTree.path parent_module al.tree })

/-- The accumulator of the classification loop: the diagnostics of the
invalid items, the hoisted alias items, and the two pushed-in-step
contract lists. -/
structure HoistState where
  invalid_items : List Diagnostic
  aliases : List Item
  impl_types : List Ty
  impls : List Path

/-- One iteration of the `for item in mod_aliases` loop of
`hoist_aliases_and_generate_impls` (lib.rs lines 207-230). -/
def hoist_step (parent_module : String) (st : HoistState) (item : Item) :
    HoistState :=
  match item with
  | Item.implItem impl_item =>
    match contract_of impl_item with
    | some (ty, path) =>
      { st with impl_types := st.impl_types ++ [ty], impls := st.impls ++ [path] }
    | none =>
      { st with invalid_items :=
          st.invalid_items ++ [Diagnostic.malformedContractAssertion impl_item.span] }
  | Item.typeAlias al =>
    match hoist_type_alias al parent_module with
    | Except.ok hoisted => { st with aliases := st.aliases ++ [hoisted] }
    | Except.error d => { st with invalid_items := st.invalid_items ++ [d] }
  | Item.useItem al =>
    match hoist_use_alias al parent_module with
    | Except.ok hoisted => { st with aliases := st.aliases ++ [hoisted] }
    | Except.error d => { st with invalid_items := st.invalid_items ++ [d] }
  | Item.otherItem _ span =>
    { st with invalid_items :=
        st.invalid_items ++ [Diagnostic.unsupportedItemKind span] }

/-- `hoist_aliases_and_generate_impls` (lib.rs lines 201-238): visit every
item, collecting hoisted aliases, contract pairs and invalid-item
diagnostics; fail with all collected diagnostics when at least one item
was invalid, otherwise return the aliases and the contract lists. -/
def hoist_aliases_and_generate_impls (mod_aliases : List Item)
    (parent_module : String) :
    Except (List Diagnostic) (List Item × (List Ty × List Path)) :=
  let st := mod_aliases.foldl (hoist_step parent_module)
    { invalid_items := [], aliases := [], impl_types := [], impls := [] }
  if st.invalid_items.isEmpty then
    Except.ok (st.aliases, (st.impl_types, st.impls))
  else
    Except.error st.invalid_items

/-! ## Declaration validator and `SpiModule` (lib.rs lines 158-199) -/

/-- `check_spi_items` (lib.rs lines 189-199): yields the inline item
list, or fails at the module identifier's span when the body is not
inline. -/
def check_spi_items (mod_decl : ItemMod) : Except (List Diagnostic) (List Item) :=
  match mod_decl.content with
  | some content => Except.ok content
  | none =>
    Except.error [Diagnostic.externalModuleNotSupported mod_decl.identSpan]

/-- The import declaration built in `SpiModule::try_from` (lib.rs lines
175-183): same attributes/visibility/identifier, content removed, a
trailing semicolon added. -/
def mod_import_of (mod_decl : ItemMod) : ItemMod :=
  { mod_decl with content := none, semi := true }

/-- The result of `SpiModule::try_from`. -/
structure SpiModule where
  mod_import_decl : ItemMod
  aliases : List Item
  implementations : List Ty × List Path

/-- `SpiModule::try_from` (lib.rs lines 169-186): validate the block,
classify/hoist its items (the `?` operators written as explicit matches),
then build the import declaration. -/
def SpiModule.try_from (mod_decl : ItemMod) : Except (List Diagnostic) SpiModule :=
  match check_spi_items mod_decl with
  | Except.error diagnostics => Except.error diagnostics
  | Except.ok mod_aliases =>
    match hoist_aliases_and_generate_impls mod_aliases mod_decl.ident with
    | Except.error diagnostics => Except.error diagnostics
    | Except.ok (aliases, implementations) =>
      Except.ok { mod_import_decl := mod_import_of mod_decl, aliases, implementations }

/-! ## Emitter (`platform_spi`, lib.rs lines 68-105) -/

/-- A `#[cfg(...)]` condition on an emitted module inclusion. -/
inductive CfgCond where
  | targetOs (name : String)
  | notAnyTargetOs (names : List String)
deriving DecidableEq, Repr

/-- Whether a `#[cfg(...)]` condition is active when compiling for the
given `target_os`. -/
def CfgCond.active (c : CfgCond) (platform : String) : Bool :=
  match c with
  | CfgCond.targetOs n => platform == n
  | CfgCond.notAnyTargetOs ns => !(ns.any (fun n => platform == n))

/-- One emitted conditional module inclusion:
`#[cfg(...)] #[path = ...] mod <name>;`. -/
structure CondInclusion where
  cfg : CfgCond
  path : String
  module : ItemMod

/-- The token stream emitted by the macro, structured: the conditional
inclusions (per-target ones then the fallback), the hoisted alias items,
and one `assert_impl_all!(type : trait)` pair per recorded contract. -/
structure GeneratedOutput where
  inclusions : List CondInclusion
  aliases : List Item
  assertions : List (Ty × Path)

/-- `platform_spi` (lib.rs lines 68-105) after argument parsing: rewrite
the module via `SpiModule::try_from`, then emit one inclusion per
(target name, source path) pair, the fallback inclusion with the
hard-coded path `"./unsupported.rs"` (line 97), the hoisted aliases, and
the contract assertions. -/
def platform_spi (config : SpiAttributes) (mod_decl : ItemMod) :
    Except (List Diagnostic) GeneratedOutput :=
  match SpiModule.try_from mod_decl with
  | Except.error diagnostics => Except.error diagnostics
  | Except.ok rewritten_decl =>
    let mod_import := rewritten_decl.mod_import_decl
    let target_names := config.target_names
    let mod_paths := config.source_paths
    Except.ok
      { inclusions :=
          (target_names.zip mod_paths).map
            (fun np => { cfg := CfgCond.targetOs np.1, path := np.2,
                         module := mod_import })
          ++ [{ cfg := CfgCond.notAnyTargetOs target_names,
                path := "./unsupported.rs", module := mod_import }],
        aliases := rewritten_decl.aliases,
        assertions :=
          rewritten_decl.implementations.1.zip rewritten_decl.implementations.2 }

/-! ## Characterisation lemmas -/

/-- Inversion for `contract_of`: a pair is extracted exactly when the body
is empty, the where-clause is absent and the trait reference is present
and not negated; the pair is then the written self type and trait path. -/
theorem contract_of_eq_some_iff (i : ItemImpl) (pr : Ty × Path) :
    contract_of i = some pr ↔
      i.items = [] ∧ i.generics.whereClause = none ∧
        i.traitRef = some (false, pr.2) ∧ pr.1 = i.selfTy := by
  obtain ⟨ty, p⟩ := pr
  cases hit : i.items <;> cases hw : i.generics.whereClause <;>
    rcases ht : i.traitRef with _ | ⟨b, q⟩ <;>
    simp [contract_of, hit, hw, ht] <;>
    cases b <;> simp <;> aesop

/-- The diagnostic (if any) that the classification loop records for one
item, as a function of the item alone. -/
def item_diagnostic (parent : String) : Item → Option Diagnostic
  | Item.implItem i =>
    match contract_of i with
    | some _ => none
    | none => some (Diagnostic.malformedContractAssertion i.span)
  | Item.typeAlias al =>
    match hoist_type_alias al parent with
    | Except.ok _ => none
    | Except.error d => some d
  | Item.useItem u =>
    match hoist_use_alias u parent with
    | Except.ok _ => none
    | Except.error d => some d
  | Item.otherItem _ span => some (Diagnostic.unsupportedItemKind span)

/-- One step of the classification loop appends the item's diagnostic
(if any) to the accumulated invalid-item list. -/
theorem hoist_step_invalid (parent : String) (st : HoistState) (item : Item) :
    (hoist_step parent st item).invalid_items =
      st.invalid_items ++ (item_diagnostic parent item).toList := by
  cases item with
  | implItem i =>
    rcases hc : contract_of i with _ | ⟨ty, p⟩ <;>
      simp [hoist_step, item_diagnostic, hc]
  | typeAlias al =>
    rcases hh : hoist_type_alias al parent with d | hoisted <;>
      simp [hoist_step, item_diagnostic, hh]
  | useItem u => simp [hoist_step, item_diagnostic, hoist_use_alias]
  | otherItem k sp => simp [hoist_step, item_diagnostic]

/-- The classification loop accumulates exactly the diagnostics of the
invalid items, in list order, after whatever the state already held. -/
theorem foldl_hoist_step_invalid (parent : String) (items : List Item)
    (st : HoistState) :
    (items.foldl (hoist_step parent) st).invalid_items =
      st.invalid_items ++ items.filterMap (item_diagnostic parent) := by
  induction items generalizing st with
  | nil => simp
  | cons it rest ih =>
    rw [List.foldl_cons, ih, hoist_step_invalid]
    cases hd : item_diagnostic parent it <;> simp [hd, List.filterMap_cons]

/-- When `SpiModule::try_from` succeeds, the emitted import declaration is
the original module with its content removed and a semicolon added. -/
theorem try_from_mod_import (m : ItemMod) (rw : SpiModule)
    (h : SpiModule.try_from m = Except.ok rw) :
    rw.mod_import_decl = mod_import_of m := by
  unfold SpiModule.try_from at h
  rcases hc : check_spi_items m with d | items
  · simp [hc] at h
  · simp only [hc] at h
    rcases hh : hoist_aliases_and_generate_impls items m.ident with d | ⟨als, impls⟩
    · simp [hh] at h
    · simp only [hh] at h
      cases h
      rfl

/-! ## Concrete fixtures -/

/-- A simple path with the given single segment and no generic arguments. -/
def simplePath (s : String) : Path :=
  { leadingColon := false, segments := [{ ident := s, args := none }] }

/-- The alias item `type X = Y;`. -/
def aliasXY : ItemType :=
  { ident := "X", ty := Ty.path none (simplePath "Y"), meta := "pub", span := 7 }

/-- The contract assertion `impl SomeTrait for PlatformService {}`. -/
def implSimple : ItemImpl :=
  { generics := { params := [], whereClause := none },
    traitRef := some (false, simplePath "SomeTrait"),
    selfTy := Ty.path none (simplePath "PlatformService"),
    items := [], span := 3 }

/-- The contract assertion `impl<T> SomeTrait for Foo<T> {}`: generic
parameters, empty body, no where-clause, positive trait reference. -/
def implGenerics : ItemImpl :=
  { generics := { params := ["T"], whereClause := none },
    traitRef := some (false, simplePath "SomeTrait"),
    selfTy := Ty.path none { leadingColon := false,
                             segments := [{ ident := "Foo", args := some "T" }] },
    items := [], span := 9 }

/-- An empty classification state, as at the start of the loop. -/
def st0 : HoistState :=
  { invalid_items := [], aliases := [], impl_types := [], impls := [] }

/-- A module block named `platform` with the given inline items. -/
def modPlatform (items : List Item) : ItemMod :=
  { ident := "platform", identSpan := 1, content := some items,
    semi := false, meta := "pub" }

/-- A module block written as `mod platform;` (external body). -/
def modExternal : ItemMod :=
  { ident := "platform", identSpan := 5, content := none, semi := true, meta := "" }

/-- The configuration `targets = [macos, windows, linux], module_path = "foo"`. -/
def cfgFoo : SpiAttributes :=
  { targets := ["macos", "windows", "linux"], module_path := "foo" }

/-- The output of `platform_spi` on `cfgFoo` and an empty `platform`
block. -/
def outFoo : GeneratedOutput :=
  { inclusions :=
      [{ cfg := CfgCond.targetOs "macos", path := "foo/macos.rs",
         module := mod_import_of (modPlatform []) },
       { cfg := CfgCond.targetOs "windows", path := "foo/windows.rs",
         module := mod_import_of (modPlatform []) },
       { cfg := CfgCond.targetOs "linux", path := "foo/linux.rs",
         module := mod_import_of (modPlatform []) },
       { cfg := CfgCond.notAnyTargetOs ["macos", "windows", "linux"],
         path := "./unsupported.rs", module := mod_import_of (modPlatform []) }],
    aliases := [], assertions := [] }

/-! ## Claims -/

/-- C1: the claim says the fallback inclusion is sourced from
`{module_path}/unsupported.rs`, so `"foo/unsupported.rs"` for
`module_path = "foo"`. The code instead hard-codes `"./unsupported.rs"`
(lib.rs line 97): on the configuration with `module_path = "foo"` the
emitted paths are the three per-target ones under `foo/` but the
fallback path is `"./unsupported.rs"`, which differs from
`"foo/unsupported.rs"`. -/
theorem C1_fallback_path_hardcoded :
    (platform_spi cfgFoo (modPlatform [])).map
        (fun out => out.inclusions.map (fun inc => inc.path))
      = Except.ok ["foo/macos.rs", "foo/windows.rs", "foo/linux.rs",
                   "./unsupported.rs"]
    ∧ "./unsupported.rs" ≠ "foo/unsupported.rs" := by
  exact ⟨rfl, by decide⟩

/-- C3: `hoist_type_alias` succeeds exactly on path target types,
rewriting the target path by inserting the block name as a new leading
segment and leaving every other part of the item unchanged; every
non-path target type fails with the path-alias-only diagnostic at the
item's span. -/
theorem C3_type_alias_hoisting (al : ItemType) (parent : String) :
    (∀ qself p, al.ty = Ty.path qself p →
      hoist_type_alias al parent =
        Except.ok (Item.typeAlias
          { al with
              ty := Ty.path qself
                { p with
                    segments :=
                      { ident := parent, args := none } :: p.segments } }))
    ∧ ((∀ qself p, al.ty ≠ Ty.path qself p) →
      hoist_type_alias al parent =
        Except.error (Diagnostic.pathAliasOnly al.span)) := by
  constructor
  · intro qself p h
    simp [hoist_type_alias, h]
  · intro h
    unfold hoist_type_alias
    cases hty : al.ty with
    | path qself p => exact absurd hty (h qself p)
    | tuple es => rfl
    | array e n => rfl
    | reference inner => rfl
    | otherTy descr => rfl

/-- C3 witness: `type X = Y;` in the block `platform` hoists to
`type X = platform::Y;`. -/
theorem C3_type_alias_hoisting_witness :
    hoist_type_alias aliasXY "platform" =
      Except.ok (Item.typeAlias
        { aliasXY with
            ty := Ty.path none
              { leadingColon := false,
                segments := [{ ident := "platform", args := none },
                             { ident := "Y", args := none }] } }) :=
  (C3_type_alias_hoisting aliasXY "platform").1 none (simplePath "Y") rfl

/-- C5: a well-formed contract assertion (empty body, no where-clause,
non-negated trait reference) makes the loop record exactly one contract
pair, equal to the written `(self type, trait path)` pair; in particular
the self type is passed through unchanged, with no block-name prefix,
whatever the block name is. -/
theorem C5_contract_pair_unrewritten (st : HoistState) (i : ItemImpl)
    (parent : String) (p : Path)
    (hbody : i.items = []) (hwhere : i.generics.whereClause = none)
    (htrait : i.traitRef = some (false, p)) :
    hoist_step parent st (Item.implItem i) =
      { st with impl_types := st.impl_types ++ [i.selfTy],
                impls := st.impls ++ [p] } := by
  simp [hoist_step, contract_of, hbody, hwhere, htrait]

/-- C5 witness: `impl SomeTrait for PlatformService {}` in the block
`platform` records the pair `(PlatformService, SomeTrait)` verbatim. -/
theorem C5_contract_pair_unrewritten_witness :
    hoist_step "platform" st0 (Item.implItem implSimple) =
      { st0 with impl_types := [Ty.path none (simplePath "PlatformService")],
                 impls := [simplePath "SomeTrait"] } :=
  C5_contract_pair_unrewritten st0 implSimple "platform"
    (simplePath "SomeTrait") rfl rfl rfl

/-- C7 counterexample: the parser accepts `targets = [macos, macos]`
verbatim, so a successfully parsed configuration can mention the same
platform identifier twice — refuting the uniqueness claim. -/
theorem C7_duplicate_targets_parsed :
    SpiAttributes.parse
        [{ name := "targets", value := ArgValue.identList ["macos", "macos"] }]
      = Except.ok { targets := ["macos", "macos"], module_path := "." }
    ∧ List.count "macos" ["macos", "macos"] = 2 := by
  exact ⟨rfl, rfl⟩

/-- C7 amended: the parsed `targets` list is exactly the identifier
sequence as written, order preserved and duplicates permitted; no
uniqueness check is performed. -/
theorem C7_targets_as_written (ids : List String) :
    SpiAttributes.parse [{ name := "targets", value := ArgValue.identList ids }]
      = Except.ok { targets := ids, module_path := "." } := by
  rfl

/-- Classification of a one-impl block, as a function of `contract_of`. -/
theorem hoist_single_impl (i : ItemImpl) (parent : String) :
    hoist_aliases_and_generate_impls [Item.implItem i] parent =
      (match contract_of i with
       | some (ty, p) => Except.ok ([], ([ty], [p]))
       | none =>
         Except.error [Diagnostic.malformedContractAssertion i.span]) := by
  rcases hc : contract_of i with _ | ⟨ty, p⟩ <;>
    simp [hoist_aliases_and_generate_impls, hoist_step, hc]

/-- C2 counterexample: `impl<T> SomeTrait for Foo<T> {}` carries generic
parameters, yet with an empty body and no where-clause the code accepts
it as a contract assertion — only the where-clause is inspected — so the
claimed "no generic/where-clause qualification" direction of the iff
fails. -/
theorem C2_generic_impl_accepted :
    hoist_aliases_and_generate_impls [Item.implItem implGenerics] "platform"
      = Except.ok ([], ([implGenerics.selfTy], [simplePath "SomeTrait"]))
    ∧ implGenerics.generics.params = ["T"] := by
  exact ⟨rfl, rfl⟩

/-- C2 amended: an impl item is accepted as a contract assertion iff it
has an empty body, no where-clause, and a single non-negated trait
reference; generic parameters alone are not checked. Any rejected impl
item fails with the malformed-contract-assertion diagnostic at its
span. -/
theorem C2_contract_acceptance (i : ItemImpl) (parent : String) :
    ((∃ r, hoist_aliases_and_generate_impls [Item.implItem i] parent
        = Except.ok r) ↔
      (i.items = [] ∧ i.generics.whereClause = none ∧
        ∃ p, i.traitRef = some (false, p)))
    ∧ (contract_of i = none →
        hoist_aliases_and_generate_impls [Item.implItem i] parent
          = Except.error [Diagnostic.malformedContractAssertion i.span]) := by
  constructor
  · constructor
    · rintro ⟨r, hr⟩
      rw [hoist_single_impl] at hr
      rcases hc : contract_of i with _ | ⟨ty, p⟩
      · rw [hc] at hr; cases hr
      · obtain ⟨h1, h2, h3, _⟩ := (contract_of_eq_some_iff i (ty, p)).1 hc
        exact ⟨h1, h2, p, h3⟩
    · rintro ⟨h1, h2, p, h3⟩
      have hc : contract_of i = some (i.selfTy, p) :=
        (contract_of_eq_some_iff i (i.selfTy, p)).2 ⟨h1, h2, h3, rfl⟩
      rw [hoist_single_impl, hc]
      exact ⟨_, rfl⟩
  · intro hc
    rw [hoist_single_impl, hc]

/-- C2 witness: the well-formed assertion
`impl SomeTrait for PlatformService {}` is accepted. -/
theorem C2_contract_acceptance_witness :
    ∃ r, hoist_aliases_and_generate_impls [Item.implItem implSimple] "platform"
      = Except.ok r :=
  (C2_contract_acceptance implSimple "platform").1.mpr
    ⟨rfl, rfl, simplePath "SomeTrait", rfl⟩

/-- The classifier fails exactly when some item is invalid, and then the
error is the full ordered list of per-item diagnostics. -/
theorem hoist_aliases_error_char (items : List Item) (parent : String)
    (ds : List Diagnostic) :
    hoist_aliases_and_generate_impls items parent = Except.error ds ↔
      ds = items.filterMap (item_diagnostic parent) ∧
        items.filterMap (item_diagnostic parent) ≠ [] := by
  have hinv := foldl_hoist_step_invalid parent items
    { invalid_items := [], aliases := [], impl_types := [], impls := [] }
  rw [List.nil_append] at hinv
  simp only [hoist_aliases_and_generate_impls, hinv]
  rcases hfm : items.filterMap (item_diagnostic parent) with _ | ⟨d, rest⟩ <;>
    simp [eq_comm]

/-- C4: the classifier never stops at the first invalid item — it fails
iff at least one item is invalid, and the failure then carries the
diagnostics of every invalid item of the list, in order. -/
theorem C4_diagnostics_aggregated (items : List Item) (parent : String) :
    ((∃ ds, hoist_aliases_and_generate_impls items parent = Except.error ds) ↔
      items.filterMap (item_diagnostic parent) ≠ [])
    ∧ ∀ ds, hoist_aliases_and_generate_impls items parent = Except.error ds →
        ds = items.filterMap (item_diagnostic parent) := by
  constructor
  · constructor
    · rintro ⟨ds, hds⟩
      exact ((hoist_aliases_error_char items parent ds).1 hds).2
    · intro hne
      exact ⟨_, (hoist_aliases_error_char items parent _).2 ⟨rfl, hne⟩⟩
  · intro ds hds
    exact ((hoist_aliases_error_char items parent ds).1 hds).1

/-- C4 witness: a block with two unsupported items fails with both
identified in one aggregated result. -/
theorem C4_diagnostics_aggregated_witness :
    ([Diagnostic.unsupportedItemKind 11, Diagnostic.unsupportedItemKind 12]
        : List Diagnostic)
      = [Item.otherItem "fn" 11, Item.otherItem "struct" 12].filterMap
          (item_diagnostic "platform") :=
  (C4_diagnostics_aggregated [Item.otherItem "fn" 11, Item.otherItem "struct" 12]
      "platform").2
    [Diagnostic.unsupportedItemKind 11, Diagnostic.unsupportedItemKind 12] rfl

/-- C6: on success the emitted inclusions are, before the final fallback,
exactly one per target in listed order — each conditioned on that
platform and sourced from `{module_path}/{P}.rs` — and a per-target
condition is active exactly when compiling for that platform. -/
theorem C6_per_target_inclusions (config : SpiAttributes) (m : ItemMod)
    (out : GeneratedOutput) (h : platform_spi config m = Except.ok out) :
    out.inclusions.dropLast =
      config.targets.map (fun P =>
        { cfg := CfgCond.targetOs P,
          path := config.module_path ++ "/" ++ P ++ ".rs",
          module := mod_import_of m })
    ∧ ∀ P plat : String, (CfgCond.targetOs P).active plat = true ↔ plat = P := by
  constructor
  · unfold platform_spi at h
    rcases htf : SpiModule.try_from m with d | rw' <;> rw [htf] at h
    · cases h
    · have hmi := try_from_mod_import m rw' htf
      cases h
      simp only [SpiAttributes.target_names, SpiAttributes.source_paths,
        List.zip_map', List.map_map, List.dropLast_concat, hmi]
      rfl
  · intro P plat
    simp [CfgCond.active]

/-- C6 witness: `targets = [macos, windows, linux]`, `module_path = "foo"`
on an empty block yields exactly those three per-target inclusions. -/
theorem C6_per_target_inclusions_witness :
    outFoo.inclusions.dropLast =
      cfgFoo.targets.map (fun P =>
        { cfg := CfgCond.targetOs P,
          path := cfgFoo.module_path ++ "/" ++ P ++ ".rs",
          module := mod_import_of (modPlatform []) }) :=
  (C6_per_target_inclusions cfgFoo (modPlatform []) outFoo rfl).1

/-- C8: a block whose body is not inline makes generation fail with
exactly the single external-module diagnostic at the block name's span —
item classification never runs, so no other diagnostic appears. -/
theorem C8_external_module_aborts (config : SpiAttributes) (m : ItemMod)
    (h : m.content = none) :
    platform_spi config m =
      Except.error [Diagnostic.externalModuleNotSupported m.identSpan] := by
  simp [platform_spi, SpiModule.try_from, check_spi_items, h]

/-- C8 witness: `mod platform;` fails with the single external-module
diagnostic at the name's span. -/
theorem C8_external_module_aborts_witness :
    platform_spi cfgFoo modExternal
      = Except.error [Diagnostic.externalModuleNotSupported 5] :=
  C8_external_module_aborts cfgFoo modExternal rfl

/-- C9: empty `targets` is legal — whenever the block itself validates,
generation succeeds and emits only the fallback inclusion, with no
per-platform inclusions; and an absent `module_path` key (and absent
`targets` key) leaves the defaults `"."` and `[]`. -/
theorem C9_empty_targets_legal (m : ItemMod) (rw : SpiModule)
    (h : SpiModule.try_from m = Except.ok rw) :
    (∃ out, platform_spi { targets := [], module_path := "." } m
        = Except.ok out ∧
      out.inclusions =
        [{ cfg := CfgCond.notAnyTargetOs [], path := "./unsupported.rs",
           module := mod_import_of m }])
    ∧ SpiAttributes.parse [] =
        Except.ok { targets := [], module_path := "." }
    ∧ SpiAttributes.parse
        [{ name := "targets", value := ArgValue.identList [] }] =
        Except.ok { targets := [], module_path := "." } := by
  refine ⟨?_, rfl, rfl⟩
  have hmi := try_from_mod_import m rw h
  refine ⟨{ inclusions :=
              [{ cfg := CfgCond.notAnyTargetOs [], path := "./unsupported.rs",
                 module := mod_import_of m }],
            aliases := rw.aliases,
            assertions := rw.implementations.1.zip rw.implementations.2 },
          ?_, rfl⟩
  unfold platform_spi
  rw [h]
  simp [SpiAttributes.target_names, SpiAttributes.source_paths, hmi]

/-- C9 witness: the empty block generates only the fallback inclusion,
and the empty argument list parses to the defaults. -/
theorem C9_empty_targets_legal_witness :
    (∃ out, platform_spi { targets := [], module_path := "." } (modPlatform [])
        = Except.ok out ∧
      out.inclusions =
        [{ cfg := CfgCond.notAnyTargetOs [], path := "./unsupported.rs",
           module := mod_import_of (modPlatform []) }])
    ∧ SpiAttributes.parse [] =
        Except.ok { targets := [], module_path := "." }
    ∧ SpiAttributes.parse
        [{ name := "targets", value := ArgValue.identList [] }] =
        Except.ok { targets := [], module_path := "." } :=
  C9_empty_targets_legal (modPlatform [])
    { mod_import_decl := mod_import_of (modPlatform []),
      aliases := [], implementations := ([], []) } rfl

/-- C10: hoisting a `use` item never fails, for every shape of use tree:
it returns the same item with the block name prepended as a leading path
segment, and the classification loop therefore records it as a hoisted
alias and never a diagnostic. -/
theorem C10_use_hoist_never_fails (u : ItemUse) (parent : String) :
    hoist_use_alias u parent =
      Except.ok (Item.useItem { u with tree := UseTree.path parent u.tree })
    ∧ ∀ st : HoistState, hoist_step parent st (Item.useItem u) =
        { st with aliases := st.aliases ++
            [Item.useItem { u with tree := UseTree.path parent u.tree }] } := by
  constructor
  · rfl
  · intro st
    simp [hoist_step, hoist_use_alias]

end PlatformSpi
